import Mathlib

/-!
# Key-Value-Store

A shallow embedding of `store/store.go` and of the request handlers of
`controllers/handlers.go`, followed by the properties of the store engine.

Modelling conventions.

* A Go `string` is a Lean `String`.  Every string that reaches the store in the
  program comes out of `json.Unmarshal` (request bodies, the snapshot file) or
  out of a URL query, so it is valid text.
* A `time.Time` is the instant it denotes, an `Int` (nanoseconds on the time
  line).  `t.After(u)` is `u < t`.
* The Go map `map[string]KvMapValue` is an association list with distinct keys
  (`AList`).  The order of the entries stands for the (unspecified) order in
  which `range` visits the map; no statement depends on it.
* `kvStore.OpCount` is a Go `int`.  It is modelled as an unbounded `Int`:
  the counter only moves by `++` and by the reset to zero, and a 64-bit `int`
  takes 2^63 increments without a snapshot in between to wrap.
* Everything outside the process is explicit: the files on disk, and a trace
  of the events a method performs, in program order (operations on `kv.Mu`,
  reads and writes of the two shared fields, calls of `AddLog`, of
  `encoding/json`, of `os.ReadFile` / `os.WriteFile`, and console output).
* `encoding/json` and the outcome of `os.WriteFile` are parameters.
* A method is described as one uninterrupted run.  The two background loops
  (`startPeriodicSave`, `cleanUp`) never return; what is modelled is the body
  they repeat: one `checkAndSave`, one sweep.
-/

namespace store

/-- Go `type KvMapValue struct { Value string; ExpireAt time.Time }`. -/
structure KvMapValue where
  Value : String
  ExpireAt : Int
  deriving DecidableEq, Repr

/-- Go `map[string]KvMapValue`. -/
abbrev GoMap := AList (fun _ : String => KvMapValue)

/-- Go `type kvStore struct`.  The field `Mu` has no data of its own: the state
of the lock is the history of `Lock` / `Unlock` / `RLock` / `RUnlock` events in
the trace. -/
structure kvStore where
  Store : GoMap
  Filename : String
  OpCount : Int

/-- One observable step of a method, in program order. -/
inductive Event where
  | Lock
  | Unlock
  | RLock
  | RUnlock
  | readStore
  | writeStore
  | readOpCount
  | writeOpCount
  | addLog (operation status key : String)
  | marshal
  | writeFile (path : String) (ok : Bool)
  | readFile (path : String)
  | unmarshal
  | print (msg : String)
  deriving DecidableEq, Repr

/-- What `os.ReadFile` finds at a path. -/
inductive File where
  | missing
  | unreadable (err : String)
  | content (data : String)
  deriving DecidableEq, Repr

/-- The process state a method of `kvStore` runs in: the store, the disk, and
the trace of events so far. -/
structure World where
  kv : kvStore
  disk : String → File
  trace : List Event

/-- The part of `encoding/json` the store uses, at the type
`map[string]KvMapValue`.  `Marshal m` is `json.Marshal(m)`.
`Unmarshal data m` is `json.Unmarshal(data, &m)` for a map variable holding
`m`: it returns the content of the variable afterwards and the error. -/
structure JSON where
  Marshal : GoMap → Except String String
  Unmarshal : String → GoMap → GoMap × Option String

/-- Append one event to the trace. -/
def emit (e : Event) (w : World) : World :=
  { w with trace := w.trace ++ [e] }

/-- The events performed between an earlier state and a later one. -/
def events (before after : World) : List Event :=
  after.trace.drop before.trace.length

/-- Go `time.Time.After`. -/
def After (t u : Int) : Bool := decide (u < t)

/-- Go `newKVStore`. -/
def newKVStore (filename : String) : kvStore :=
  { Store := ∅, Filename := filename, OpCount := 0 }

/-- Go `kvStore.AddLog`: one line for `logs.log`.  The line is recorded as the
call; its timestamp and the failure to open or write the log file (reported on
the console, never returned) are left out. -/
def AddLog (w : World) (operation status key : String) : World :=
  emit (Event.addLog operation status key) w

/-- Go `kvStore.Set`. -/
def Set (w : World) (key : String) (val : KvMapValue) : World :=
  let w := emit Event.Lock w
  let w := emit Event.writeStore { w with kv := { w.kv with Store := w.kv.Store.insert key val } }
  let w := emit Event.writeOpCount { w with kv := { w.kv with OpCount := w.kv.OpCount + 1 } }
  let w := AddLog w "SET" "Success" key
  emit Event.Unlock w

/-- Go `kvStore.Get`: the returned string and the state afterwards. -/
def Get (w : World) (key : String) : String × World :=
  let w := emit Event.RLock w
  let w := emit Event.readStore w
  match w.kv.Store.lookup key with
  | some val =>
    let w := AddLog w "READ" "Success" key
    (val.Value, emit Event.RUnlock w)
  | none =>
    let w := AddLog w "READ" "Failure" key
    ("", emit Event.RUnlock w)

/-- Go `kvStore.Delete`. -/
def Delete (w : World) (key : String) : World :=
  let w := emit Event.Lock w
  let w := emit Event.writeStore { w with kv := { w.kv with Store := w.kv.Store.erase key } }
  let w := emit Event.writeOpCount { w with kv := { w.kv with OpCount := w.kv.OpCount + 1 } }
  let w := AddLog w "DELETE" "Success" key
  emit Event.Unlock w

/-- Go `kvStore.Update`: the returned bool and the state afterwards. -/
def Update (w : World) (key value : String) : Bool × World :=
  let w := emit Event.Lock w
  let w := emit Event.readStore w
  match w.kv.Store.lookup key with
  | some val =>
    let w := emit Event.writeStore
      { w with kv := { w.kv with
          Store := w.kv.Store.insert key { Value := value, ExpireAt := val.ExpireAt } } }
    let w := emit Event.writeOpCount { w with kv := { w.kv with OpCount := w.kv.OpCount + 1 } }
    let w := AddLog w "UPDATE" "Success" key
    (true, emit Event.Unlock w)
  | none =>
    let w := AddLog w "UPDATE" "Failure" key
    (false, emit Event.Unlock w)

/-- Go `kvStore.SaveToFile`: the returned error (`none` is `nil`) and the state
afterwards.  `writeOk` is the outcome of `os.WriteFile`; a write that succeeds
leaves a readable file with exactly the data written, a write that fails is
taken to leave the disk as it was. -/
def SaveToFile (json : JSON) (writeOk : Bool) (w : World) : Option String × World :=
  let w := emit Event.readStore w
  let w := emit Event.marshal w
  match json.Marshal w.kv.Store with
  | Except.error err => (some err, w)
  | Except.ok jsonData =>
    let w := emit (Event.writeFile w.kv.Filename writeOk) w
    if writeOk then
      let w := { w with disk := fun p => if p = w.kv.Filename then File.content jsonData else w.disk p }
      let w := emit Event.writeOpCount { w with kv := { w.kv with OpCount := 0 } }
      (none, w)
    else
      (some "write failed", w)

/-- Go `kvStore.checkAndSave`.  The right operand of `||` is evaluated, and
`OpCount` read, only when the trigger is not `"Periodic"`. -/
def checkAndSave (json : JSON) (writeOk : Bool) (triggerType : String) (w : World) : World :=
  let w := emit Event.Lock w
  let w := if triggerType = "Periodic" then w else emit Event.readOpCount w
  if triggerType = "Periodic" ∨ w.kv.OpCount ≥ 5 then
    match SaveToFile json writeOk w with
    | (some err, w) => emit Event.Unlock (emit (Event.print ("Error saving to file: " ++ err)) w)
    | (none, w) => emit Event.Unlock w
  else
    emit Event.Unlock w

/-- The inner `for key, val := range kv.Store` of Go `kvStore.cleanUp`, over
the entries still to be visited.  Every step of the `range` reads the map;
`clock i` is what the `i`-th call of `time.Now()` in the sweep returns. -/
def cleanUpRange (clock : Nat → Int) :
    Nat → List (Sigma fun _ : String => KvMapValue) → World → World
  | _, [], w => emit Event.readStore w
  | i, ⟨key, val⟩ :: rest, w =>
    let w := emit Event.readStore w
    let w := if After (clock i) val.ExpireAt then
        AddLog (Delete w key) "CLEANUP" "Expired" key
      else w
    cleanUpRange clock (i + 1) rest w

/-- Go `kvStore.cleanUp`, the body of one tick of its ticker.  The only change
the body makes to the map during the iteration is the deletion of the entry
being visited, so the `range` visits exactly the entries present at its
start. -/
def cleanUp (clock : Nat → Int) (w : World) : World :=
  cleanUpRange clock 0 w.kv.Store.entries w

/-- How `kv.Mu` is held at a point of a trace. -/
inductive Held where
  | free
  | shared
  | exclusive
  deriving DecidableEq, Repr

/-- The locking discipline on a trace, starting with the lock held as given:
every read of `Store` or `OpCount` happens with the lock held (shared or
exclusive) and every write with the lock held exclusively. -/
def guarded : Held → List Event → Bool
  | _, [] => true
  | _, Event.Lock :: es => guarded Held.exclusive es
  | _, Event.Unlock :: es => guarded Held.free es
  | _, Event.RLock :: es => guarded Held.shared es
  | _, Event.RUnlock :: es => guarded Held.free es
  | h, Event.readStore :: es => decide (h ≠ Held.free) && guarded h es
  | h, Event.readOpCount :: es => decide (h ≠ Held.free) && guarded h es
  | h, Event.writeStore :: es => decide (h = Held.exclusive) && guarded h es
  | h, Event.writeOpCount :: es => decide (h = Held.exclusive) && guarded h es
  | h, _ :: es => guarded h es

end store

namespace controllers

/-- Go `type RequestData struct`, the decoded body of a POST / PUT / PATCH. -/
structure RequestData where
  Key : String
  Value : String
  TTL : String
  deriving DecidableEq, Repr

/-- What `io.ReadAll(r.Body)` followed by `json.Unmarshal(body, &data)` gives. -/
inductive Body where
  | unreadable
  | malformed
  | data (d : RequestData)
  deriving DecidableEq, Repr

/-- The parts of an `*http.Request` the handlers look at: the method, the
query parameter `key` (`r.URL.Query().Get("key")`), and the body. -/
structure Request where
  Method : String
  key : String
  body : Body
  deriving DecidableEq, Repr

/-- What a handler writes to the `http.ResponseWriter`: either `http.Error`
with a message and a status code, or a status code and a JSON object. -/
inductive Response where
  | error (msg : String) (code : Nat)
  | json (code : Nat) (fields : List (String × String))
  deriving DecidableEq, Repr

/-- Go `time.Hour`, in nanoseconds. -/
def Hour : Int := 3600 * 1000000000

/-- Go `controllers.Get`, on the global `store.KvStore` held in the world. -/
def Get (w : store.World) (r : Request) : Response × store.World :=
  if r.Method ≠ "GET" then (Response.error "Method not allowed" 405, w)
  else if r.key = "" then (Response.error "Please provide a key" 404, w)
  else
    let res := store.Get w r.key
    if res.1 = "" then (Response.error "Key does not exist" 404, res.2)
    else (Response.json 200 [("data", res.1)], res.2)

/-- Go `controllers.Set`.  `ParseDuration` is `time.ParseDuration` (`none` for
an error) and `now` is what `time.Now()` returns. -/
def Set (ParseDuration : String → Option Int) (now : Int) (w : store.World) (r : Request) :
    Response × store.World :=
  if r.Method ≠ "POST" then (Response.error "Method not allowed" 405, w)
  else
    match r.body with
    | Body.unreadable => (Response.error "Error reading request body" 400, w)
    | Body.malformed => (Response.error "Error decoding request" 500, w)
    | Body.data data =>
      if data.Key = "" then (Response.error "Key cannot be empty" 400, w)
      else
        let ttl := match ParseDuration data.TTL with
          | some d => d
          | none => Hour * 24
        let w := store.Set w data.Key { Value := data.Value, ExpireAt := now + ttl }
        (Response.json 201
          [("status", "success"), ("message", "Key-value pair set successfully")], w)

/-- Go `controllers.Update`. -/
def Update (w : store.World) (r : Request) : Response × store.World :=
  if r.Method ≠ "PATCH" ∧ r.Method ≠ "PUT" then (Response.error "Method not allowed" 405, w)
  else
    match r.body with
    | Body.unreadable => (Response.error "Error reading request body" 400, w)
    | Body.malformed => (Response.error "Error decoding response" 500, w)
    | Body.data data =>
      if data.Key = "" then (Response.error "Key cannot be empty" 400, w)
      else
        let res := store.Update w data.Key data.Value
        if res.1 then
          (Response.json 200 [("status", "success"), ("message", "Key updated successfully")],
            res.2)
        else
          (Response.json 404
            [("status", "failure"), ("message", "Couldn\x27t update successfully")], res.2)

/-- Go `controllers.Delete`. -/
def Delete (w : store.World) (r : Request) : Response × store.World :=
  if r.Method ≠ "DELETE" then (Response.error "Method not allowed" 405, w)
  else if r.key = "" then (Response.error "Please provide key" 400, w)
  else
    (Response.json 200
      [("status", "success"), ("message", "Key-Value deleted successfully")],
      store.Delete w r.key)

end controllers

namespace store

/-- A store as `newKVStore` makes it, on an empty disk, with no history. -/
def fresh (filename : String) : World :=
  { kv := newKVStore filename, disk := fun _ => File.missing, trace := [] }

/-- A sample state: the key `a` holds the value `1`, expiring at instant 10. -/
def sample : World :=
  { kv := { Store := AList.insert "a" { Value := "1", ExpireAt := 10 } ∅,
            Filename := "data.json", OpCount := 0 },
    disk := fun _ => File.missing, trace := [] }

/-- C2. When `k` is present with entry `{v1, e}`, `Update(k, v2)` returns true,
afterwards `k` maps to `{v2, e}` (same expiry), and every other key keeps its
entry. -/
theorem Update_present (w : World) (k v1 v2 : String) (e : Int)
    (h : w.kv.Store.lookup k = some { Value := v1, ExpireAt := e }) :
    (Update w k v2).1 = true ∧
    (Update w k v2).2.kv.Store.lookup k = some { Value := v2, ExpireAt := e } ∧
    ∀ k2, k2 ≠ k → (Update w k v2).2.kv.Store.lookup k2 = w.kv.Store.lookup k2 := by
  refine ⟨?_, ?_, ?_⟩
  · simp [Update, emit, AddLog, h]
  · simp [Update, emit, AddLog, h, AList.lookup_insert]
  · intro k2 hk
    simp [Update, emit, AddLog, h, AList.lookup_insert_ne hk]

/-- Witness for C2: in the sample state, updating `a`. -/
theorem Update_present_witness :
    sample.kv.Store.lookup "a" = some { Value := "1", ExpireAt := 10 } ∧
    ((Update sample "a" "2").1 = true ∧
     (Update sample "a" "2").2.kv.Store.lookup "a" = some { Value := "2", ExpireAt := 10 } ∧
     ∀ k2, k2 ≠ "a" →
       (Update sample "a" "2").2.kv.Store.lookup k2 = sample.kv.Store.lookup k2) :=
  ⟨by decide, Update_present sample "a" "1" "2" 10 (by decide)⟩

/-- C3. When `k` is absent, `Update(k, v2)` returns false and leaves the map
and the dirty counter unchanged. -/
theorem Update_absent (w : World) (k v2 : String) (h : w.kv.Store.lookup k = none) :
    (Update w k v2).1 = false ∧
    (Update w k v2).2.kv.Store = w.kv.Store ∧
    (Update w k v2).2.kv.OpCount = w.kv.OpCount := by
  simp [Update, emit, AddLog, h]

/-- Witness for C3: in the sample state, updating the absent `b`. -/
theorem Update_absent_witness :
    sample.kv.Store.lookup "b" = none ∧
    ((Update sample "b" "2").1 = false ∧
     (Update sample "b" "2").2.kv.Store = sample.kv.Store ∧
     (Update sample "b" "2").2.kv.OpCount = sample.kv.OpCount) :=
  ⟨by decide, Update_absent sample "b" "2" (by decide)⟩

/-- Erasing a key that is not in the map gives the same map back. -/
theorem erase_absent (m : GoMap) (k : String) (h : m.lookup k = none) : m.erase k = m := by
  apply AList.ext
  have hk : k ∉ m.entries.keys := by
    have := AList.lookup_eq_none.mp h
    simpa [AList.mem_keys, AList.keys] using this
  simp [AList.erase, List.kerase_of_not_mem_keys hk]

/-- C4. After `Delete(k)`, `Get(k)` is a miss (it returns the empty string and
records a failed read, `k` being absent from the map); every other key keeps
its entry; and when `k` was absent beforehand the map is the same map. -/
theorem Get_after_Delete (w : World) (k : String) :
    (Get (Delete w k) k).1 = "" ∧
    Event.addLog "READ" "Failure" k ∈ events (Delete w k) (Get (Delete w k) k).2 ∧
    (Delete w k).kv.Store.lookup k = none ∧
    (∀ k2, k2 ≠ k → (Delete w k).kv.Store.lookup k2 = w.kv.Store.lookup k2) ∧
    (w.kv.Store.lookup k = none → (Delete w k).kv.Store = w.kv.Store) := by
  refine ⟨?_, ?_, ?_, ?_, ?_⟩
  · simp [Get, Delete, emit, AddLog, AList.lookup_erase]
  · simp [Get, Delete, emit, AddLog, AList.lookup_erase, events]
  · simp [Delete, emit, AddLog, AList.lookup_erase]
  · intro k2 hk
    simp [Delete, emit, AddLog, AList.lookup_erase_ne hk]
  · intro h
    simp [Delete, emit, AddLog, erase_absent _ _ h]

/-- Witness for C4: deleting the absent key `b` of the sample
state leaves the map as it was, and deleting `a` leaves `b` as it was. -/
theorem Get_after_Delete_witness :
    sample.kv.Store.lookup "b" = none ∧ (Delete sample "b").kv.Store = sample.kv.Store ∧
    "b" ≠ "a" ∧ (Delete sample "a").kv.Store.lookup "b" = sample.kv.Store.lookup "b" :=
  ⟨by decide, (Get_after_Delete sample "b").2.2.2.2 (by decide), by decide,
    (Get_after_Delete sample "a").2.2.2.1 "b" (by decide)⟩

/-- C5, evaluated. A `POST /set` with key `a` and the empty value is accepted
and stores the entry; `kvStore.Get` then finds the key (it records the read as
a success, and `Update` on the key returns true) but returns the empty string,
which `controllers.Get` answers with 404 "Key does not exist". -/
theorem Get_present_empty_value_reported_missing :
    (controllers.Set (fun _ => none) 0 (fresh "data.json")
        { Method := "POST", key := "",
          body := controllers.Body.data { Key := "a", Value := "", TTL := "" } }).1
      = controllers.Response.json 201
          [("status", "success"), ("message", "Key-value pair set successfully")] ∧
    (controllers.Set (fun _ => none) 0 (fresh "data.json")
        { Method := "POST", key := "",
          body := controllers.Body.data { Key := "a", Value := "", TTL := "" } }).2.kv.Store.lookup "a"
      = some { Value := "", ExpireAt := 86400000000000 } ∧
    (controllers.Get
        (controllers.Set (fun _ => none) 0 (fresh "data.json")
          { Method := "POST", key := "",
            body := controllers.Body.data { Key := "a", Value := "", TTL := "" } }).2
        { Method := "GET", key := "a", body := controllers.Body.unreadable }).1
      = controllers.Response.error "Key does not exist" 404 ∧
    Event.addLog "READ" "Success" "a" ∈
      (controllers.Get
        (controllers.Set (fun _ => none) 0 (fresh "data.json")
          { Method := "POST", key := "",
            body := controllers.Body.data { Key := "a", Value := "", TTL := "" } }).2
        { Method := "GET", key := "a", body := controllers.Body.unreadable }).2.trace ∧
    (Update
        (controllers.Set (fun _ => none) 0 (fresh "data.json")
          { Method := "POST", key := "",
            body := controllers.Body.data { Key := "a", Value := "", TTL := "" } }).2
        "a" "x").1 = true := by
  decide

/-- The events of the `range` loop of a sweep come after the history so far. -/
theorem cleanUpRange_trace (clock : Nat → Int) :
    ∀ (es : List (Sigma fun _ : String => KvMapValue)) (i : Nat) (w : World),
      ∃ evs, (cleanUpRange clock i es w).trace = w.trace ++ evs := by
  intro es
  induction es with
  | nil => intro i w; exact ⟨[Event.readStore], by simp [cleanUpRange, emit]⟩
  | cons e rest ih =>
    intro i w
    obtain ⟨key, val⟩ := e
    simp only [cleanUpRange]
    split
    · obtain ⟨evs, h⟩ := ih (i + 1) (AddLog (Delete (emit Event.readStore w) key)
        "CLEANUP" "Expired" key)
      exact ⟨_, by rw [h]; simp [AddLog, Delete, emit]; rfl⟩
    · obtain ⟨evs, h⟩ := ih (i + 1) (emit Event.readStore w)
      exact ⟨_, by rw [h]; simp [emit]; rfl⟩

/-- The first event of a sweep is a read of the map. -/
theorem cleanUp_first_event (clock : Nat → Int) (w : World) :
    ∃ evs, events w (cleanUp clock w) = Event.readStore :: evs := by
  unfold cleanUp
  cases w.kv.Store.entries with
  | nil => exact ⟨[], by simp [cleanUpRange, emit, events]⟩
  | cons e rest =>
    obtain ⟨key, val⟩ := e
    simp only [cleanUpRange]
    split
    · obtain ⟨evs, h⟩ := cleanUpRange_trace clock rest 1
        (AddLog (Delete (emit Event.readStore w) key) "CLEANUP" "Expired" key)
      refine ⟨[Event.Lock, Event.writeStore, Event.writeOpCount,
        Event.addLog "DELETE" "Success" key, Event.Unlock,
        Event.addLog "CLEANUP" "Expired" key] ++ evs, ?_⟩
      rw [events, h]
      simp [AddLog, Delete, emit]
    · obtain ⟨evs, h⟩ := cleanUpRange_trace clock rest 1 (emit Event.readStore w)
      refine ⟨evs, ?_⟩
      rw [events, h]
      simp [emit]

/-- C10, evaluated on every state. `Set`, `Get`, `Update`, `Delete` and
`checkAndSave` (with the `SaveToFile` inside it) touch `Store` and `OpCount`
only with `kv.Mu` held, exclusively for the writers and shared for `Get`; the
sweep of `cleanUp` does not: its `range` reads the map with the lock free. -/
theorem cleanUp_reads_Store_unlocked (json : JSON) (writeOk : Bool) (t : String)
    (clock : Nat → Int) (w : World) (k v : String) (val : KvMapValue) :
    guarded Held.free (events w (Set w k val)) = true ∧
    guarded Held.free (events w (Get w k).2) = true ∧
    guarded Held.free (events w (Update w k v).2) = true ∧
    guarded Held.free (events w (Delete w k)) = true ∧
    guarded Held.free (events w (checkAndSave json writeOk t w)) = true ∧
    guarded Held.free (events w (cleanUp clock w)) = false := by
  refine ⟨?_, ?_, ?_, ?_, ?_, ?_⟩
  · simp [Set, emit, AddLog, events, guarded]
  · cases hl : w.kv.Store.lookup k <;> simp [Get, emit, AddLog, events, guarded, hl]
  · cases hl : w.kv.Store.lookup k <;> simp [Update, emit, AddLog, events, guarded, hl]
  · simp [Delete, emit, AddLog, events, guarded]
  · by_cases ht : t = "Periodic" <;> by_cases hc : w.kv.OpCount ≥ 5 <;>
      cases hm : json.Marshal w.kv.Store <;> cases writeOk <;>
      simp [checkAndSave, SaveToFile, emit, events, guarded, ht, hc, hm]
  · obtain ⟨evs, h⟩ := cleanUp_first_event clock w
    rw [h]
    simp [guarded]

end store
